import Mathlib

/-!
Verification of the metadata-extraction / quality-matching engine of
`api-manager.js` (class `APIManager`).

The JavaScript source is shallowly embedded: strings are Lean `String`s
(worked on as `List Char`), regex tests and global replaces are modelled by
explicit character scanners that follow the concrete patterns of the source,
JS numbers used by the size logic are modelled as rationals, and the
stateful upgrade scanner is modelled as a pure function of a collaborator
environment that also returns the sequence of collaborator calls.
Case-insensitive matching uses ASCII case mapping (`Char.toLower`), which
agrees with JS `toLowerCase`/`/i` on the ASCII release names the code
handles.
-/

/-- JS line terminators: `.` in a regex matches anything except these
(LF, CR, U+2028, U+2029). -/
def isLineTerm (c : Char) : Bool :=
  c = '\n' || c = '\r' || c.toNat = 0x2028 || c.toNat = 0x2029

/-- ECMAScript whitespace (the class `\s`, also what `String.prototype.trim`
removes): tab, LF, VT, FF, CR, space, NBSP, BOM, Ogham space mark, the
Unicode Zs spaces U+2000..U+200A, line/paragraph separator, narrow NBSP,
medium mathematical space and ideographic space. -/
def isJSSpace (c : Char) : Bool :=
  c = ' ' || c = '\t' || c = '\n' || c = '\r' || c = '\x0b' || c = '\x0c' ||
  c.toNat = 0xa0 || c.toNat = 0xfeff || c.toNat = 0x1680 ||
  (0x2000 ≤ c.toNat && c.toNat ≤ 0x200a) ||
  c.toNat = 0x2028 || c.toNat = 0x2029 || c.toNat = 0x202f ||
  c.toNat = 0x205f || c.toNat = 0x3000

/-- Characters of a string, lower-cased (model of `s.toLowerCase()`). -/
def lowerS (s : String) : List Char := s.data.map Char.toLower

/-- `startsWithL needle hay`: `hay` starts with `needle` (exact characters). -/
def startsWithL : List Char → List Char → Bool
  | [], _ => true
  | _ :: _, [] => false
  | a :: as, b :: bs => a = b && startsWithL as bs

/-- `containsL needle hay`: `needle` occurs contiguously inside `hay`
(model of a literal-substring regex test / `String.prototype.includes`). -/
def containsL (needle : List Char) : List Char → Bool
  | [] => needle.isEmpty
  | c :: cs => startsWithL needle (c :: cs) || containsL needle cs

/-- Case-insensitive substring test, e.g. `/bluray/i.test(hay)`. -/
def containsInsens (needle hay : String) : Bool :=
  containsL (lowerS needle) (lowerS hay)

/-- Model of `String.prototype.trim`: drop JS whitespace at both ends. -/
def trimL (cs : List Char) : List Char :=
  ((cs.dropWhile isJSSpace).reverse.dropWhile isJSSpace).reverse

/-! ### `cleanTitle` (api-manager.js lines 316-325)

Five sequential global regex replaces followed by `trim()`:
`/\[.*?\]/g`, `/\(.*?\)/g`, `/\d{4}p?/g`,
`/BluRay|WEB-DL|WEBRip|HDRip|BRRip/gi`, `/x264|x265|HEVC/gi`. -/

/-- For the lazy body `.*?` of `/\[.*?\]/`: find the first closing delimiter,
returning the characters after it; fails if a line terminator (which `.`
cannot match) comes first, or no closing delimiter exists. -/
def findClose (cls : Char) : List Char → Option (List Char)
  | [] => none
  | c :: cs => if c = cls then some cs
               else if isLineTerm c then none
               else findClose cls cs

/-- One global-replace pass deleting every lazy `opn .*? cls` match, scanning
left to right.  The `Nat` argument bounds the recursion; it starts at the
length of the text and is never exhausted because every removed match
consumes at least one character. -/
def stripDelimGo (opn cls : Char) : Nat → List Char → List Char
  | _, [] => []
  | 0, cs => cs
  | fuel + 1, c :: rest =>
    if c = opn then
      match findClose cls rest with
      | some rest2 => stripDelimGo opn cls fuel rest2
      | none => c :: stripDelimGo opn cls fuel rest
    else c :: stripDelimGo opn cls fuel rest

/-- `title.replace(/\[.*?\]/g, '')` is `stripDelim '[' ']'`, and
`.replace(/\(.*?\)/g, '')` is `stripDelim '(' ')'`. -/
def stripDelim (opn cls : Char) (cs : List Char) : List Char :=
  stripDelimGo opn cls cs.length cs

/-- `title.replace(/\d{4}p?/g, '')`: delete each run of exactly four ASCII
digits together with one optional following literal `p` (this replace has no
`i` flag), scanning left to right and continuing after each deleted match. -/
def stripResGo : Nat → List Char → List Char
  | _, [] => []
  | 0, cs => cs
  | fuel + 1, a :: rest =>
    match rest with
    | b :: c :: d :: rest2 =>
      if a.isDigit && b.isDigit && c.isDigit && d.isDigit then
        match rest2 with
        | 'p' :: rest3 => stripResGo fuel rest3
        | _ => stripResGo fuel rest2
      else a :: stripResGo fuel rest
    | _ => a :: stripResGo fuel rest

def stripRes (cs : List Char) : List Char :=
  stripResGo cs.length cs

/-- Case-insensitive literal match at the head of the text: `lit` is given
lower-cased; on success returns the remainder of the text. -/
def matchLit (lit : List Char) (cs : List Char) : Option (List Char) :=
  match lit, cs with
  | [], rest => some rest
  | _ :: _, [] => none
  | l :: ls, c :: cs2 => if c.toLower = l then matchLit ls cs2 else none

/-- First alternative of an alternation `/a|b|.../i` matching at the head of
the text (JS tries the alternatives in written order at each position). -/
def firstLit (lits : List (List Char)) (cs : List Char) : Option (List Char)
  :=
  match lits with
  | [] => none
  | l :: ls => match matchLit l cs with
    | some rest => some rest
    | none => firstLit ls cs

/-- One global-replace pass deleting every case-insensitive match of an
alternation of literals, scanning left to right.  The `Nat` fuel starts at
the length of the text and is never exhausted because the alternatives are
all nonempty. -/
def stripLitsGo (lits : List (List Char)) : Nat → List Char → List Char
  | _, [] => []
  | 0, cs => cs
  | fuel + 1, c :: rest =>
    match firstLit lits (c :: rest) with
    | some rest2 => stripLitsGo lits fuel rest2
    | none => c :: stripLitsGo lits fuel rest

def stripLits (lits : List (List Char)) (cs : List Char) : List Char :=
  stripLitsGo lits cs.length cs

/-- Alternatives of `/BluRay|WEB-DL|WEBRip|HDRip|BRRip/gi`, in order. -/
def sourceTags : List (List Char) :=
  ["bluray".data, "web-dl".data, "webrip".data, "hdrip".data, "brrip".data]

/-- Alternatives of `/x264|x265|HEVC/gi`, in order. -/
def codecTags : List (List Char) :=
  ["x264".data, "x265".data, "hevc".data]

/-- `cleanTitle(title)` (lines 316-325). -/
def cleanTitle (title : String) : String :=
  String.mk (trimL (stripLits codecTags (stripLits sourceTags (stripRes
    (stripDelim '(' ')' (stripDelim '[' ']' title.data))))))

/-! ### `extractQuality` (lines 327-330): first match of
`/(\d{3,4}p)|4K|UHD/i`, else `'Unknown'`. -/

/-- Try the alternation `(\d{3,4}p)|4K|UHD` (case-insensitive) at the head of
the text, returning the matched characters as they appear in the text.
`\d{3,4}` is greedy, so four digits are preferred over three. -/
def qualAt (cs : List Char) : Option (List Char) :=
  match cs with
  | a :: b :: c :: d :: e :: _ =>
    if a.isDigit && b.isDigit && c.isDigit && d.isDigit && e.toLower = 'p'
    then some [a, b, c, d, e]
    else if a.isDigit && b.isDigit && c.isDigit && d.toLower = 'p'
    then some [a, b, c, d]
    else if a = '4' && b.toLower = 'k' then some [a, b]
    else if a.toLower = 'u' && b.toLower = 'h' && c.toLower = 'd'
    then some [a, b, c]
    else none
  | a :: b :: c :: d :: [] =>
    if a.isDigit && b.isDigit && c.isDigit && d.toLower = 'p'
    then some [a, b, c, d]
    else if a = '4' && b.toLower = 'k' then some [a, b]
    else if a.toLower = 'u' && b.toLower = 'h' && c.toLower = 'd'
    then some [a, b, c]
    else none
  | a :: b :: c :: [] =>
    if a = '4' && b.toLower = 'k' then some [a, b]
    else if a.toLower = 'u' && b.toLower = 'h' && c.toLower = 'd'
    then some [a, b, c]
    else none
  | a :: b :: [] =>
    if a = '4' && b.toLower = 'k' then some [a, b] else none
  | _ => none

/-- Leftmost match of the quality alternation. -/
def scanQuality : List Char → Option (List Char)
  | [] => none
  | c :: cs =>
    match qualAt (c :: cs) with
    | some m => some m
    | none => scanQuality cs

def extractQuality (title : String) : String :=
  match scanQuality title.data with
  | some m => String.mk m
  | none => "Unknown"

/-! ### `extractSize` (lines 332-335) and `convertSizeToGB` (lines 639-649)

Both use the pattern `/(\d+(?:\.\d+)?)\s*(GB|MB)/i`; `extractSize` rebuilds
`"<number> <unit>"` from the two capture groups, `convertSizeToGB` parses
the number and divides by 1024 for megabytes. -/

/-- Try `(\d+(?:\.\d+)?)\s*(GB|MB)` at the head of the text; on success
return the characters of the two capture groups (number, unit) as written.
Greedy `\d+` needs no backtracking here: shortening a digit run only ever
puts another digit where `G`/`M` or `.` would have to match. -/
def trySizeAt (cs : List Char) : Option (List Char × List Char) :=
  let ds := cs.takeWhile Char.isDigit
  let r1 := cs.dropWhile Char.isDigit
  if ds.isEmpty then none
  else
    let numRest : List Char × List Char :=
      match r1 with
      | '.' :: afterDot =>
        let fs := afterDot.takeWhile Char.isDigit
        if fs.isEmpty then (ds, r1)
        else (ds ++ '.' :: fs, afterDot.dropWhile Char.isDigit)
      | _ => (ds, r1)
    let r3 := numRest.2.dropWhile isJSSpace
    match r3 with
    | u1 :: u2 :: _ =>
      if (u1.toLower = 'g' || u1.toLower = 'm') && u2.toLower = 'b'
      then some (numRest.1, [u1, u2])
      else none
    | _ => none

/-- Leftmost match of the size pattern. -/
def scanSize : List Char → Option (List Char × List Char)
  | [] => none
  | c :: cs =>
    match trySizeAt (c :: cs) with
    | some r => some r
    | none => scanSize cs

def extractSize (title : String) : String :=
  match scanSize title.data with
  | some (num, unit) => String.mk num ++ " " ++ String.mk unit
  | none => "Unknown"

/-- Value of a run of ASCII digits. -/
def digitsVal (ds : List Char) : Nat :=
  ds.foldl (fun n c => n * 10 + (c.toNat - 48)) 0

/-- `parseFloat` on a string of shape `\d+(\.\d+)?` (the only shape the size
capture can have), as an exact rational. -/
def parseNum (num : List Char) : ℚ :=
  let ip := num.takeWhile Char.isDigit
  match num.dropWhile Char.isDigit with
  | '.' :: fs => (digitsVal ip : ℚ) + (digitsVal fs : ℚ) / ((10 : ℚ) ^ fs.length)
  | _ => (digitsVal ip : ℚ)

/-- `convertSizeToGB(sizeString)` (lines 639-649): 0 for falsy/`'Unknown'`
input or no match; otherwise the parsed value, divided by 1024 when the
unit is MB. -/
def convertSizeToGB (sizeString : String) : ℚ :=
  if sizeString = "" || sizeString = "Unknown" then 0
  else
    match scanSize sizeString.data with
    | none => 0
    | some (num, unit) =>
      if unit.map Char.toLower = "gb".data then parseNum num
      else parseNum num / 1024

/-! ### `detectContentType` (lines 337-342): `/S\d{2}E\d{2}|Season|Episode/i`. -/

/-- `/s\d{2}e\d{2}/i.test`: an `S`, two digits, an `E`, two digits occur
contiguously (case-insensitive). -/
def testSddEdd : List Char → Bool
  | s :: a :: b :: e :: c :: d :: rest =>
    (s.toLower = 's' && a.isDigit && b.isDigit && e.toLower = 'e' &&
     c.isDigit && d.isDigit) ||
    testSddEdd (a :: b :: e :: c :: d :: rest)
  | _ => false

/-- `/s\d{2}/i.test`: an `S` followed by two digits occurs (case-insensitive). -/
def testSdd : List Char → Bool
  | s :: a :: b :: rest =>
    (s.toLower = 's' && a.isDigit && b.isDigit) || testSdd (a :: b :: rest)
  | _ => false

def detectContentType (title : String) : String :=
  if testSddEdd title.data || containsInsens "season" title ||
     containsInsens "episode" title
  then "tv" else "movie"

/-! ### `extractHDRInfo` (lines 344-358) -/

/-- `dolby.?vision` at some position: `dolby`, at most one character that is
not a line terminator, then `vision` (all case-insensitive). -/
def testDolby : List Char → Bool
  | [] => false
  | c :: cs =>
    (startsWithL ("dolby".data) ((c :: cs).map Char.toLower) &&
      (let rest := (c :: cs).drop 5
       startsWithL ("vision".data) (rest.map Char.toLower) ||
       (match rest with
        | x :: rs => !isLineTerm x && startsWithL ("vision".data) (rs.map Char.toLower)
        | [] => false)))
    || testDolby cs

/-- `/hdr10(?!\+)/i.test`: an occurrence of `hdr10` not followed by `+`. -/
def testHdr10NotPlus : List Char → Bool
  | [] => false
  | c :: cs =>
    (startsWithL ("hdr10".data) ((c :: cs).map Char.toLower) &&
      (match (c :: cs).drop 5 with
       | [] => true
       | x :: _ => x ≠ '+'))
    || testHdr10NotPlus cs

/-- A JS word character (`\w` is `[A-Za-z0-9_]`). -/
def isWordChar (c : Char) : Bool :=
  ('a' ≤ c && c ≤ 'z') || ('A' ≤ c && c ≤ 'Z') || c.isDigit || c = '_'

/-- `/\bhdr\b/i.test`: an occurrence of `hdr` whose neighbours (if any) are
not word characters; `prev` is the character just before the current
position (`none` at the start of the string). -/
def testWordHdr (prev : Option Char) : List Char → Bool
  | [] => false
  | c :: cs =>
    ((match prev with
      | none => true
      | some q => !isWordChar q) &&
     startsWithL ("hdr".data) ((c :: cs).map Char.toLower) &&
     (match (c :: cs).drop 3 with
      | [] => true
      | x :: _ => !isWordChar x))
    || testWordHdr (some c) cs

/-- `extractHDRInfo(title)`: the four pattern tests of the source, resolved
in the source's priority order Dolby Vision, HDR10+, HDR10, HDR, else SDR. -/
def extractHDRInfo (title : String) : String :=
  if testDolby title.data || containsL ("dv".data) (lowerS title)
  then "Dolby Vision"
  else if containsL ("hdr10+".data) (lowerS title) then "HDR10+"
  else if testHdr10NotPlus title.data then "HDR10"
  else if testWordHdr none title.data && !containsL ("hdr10".data) (lowerS title)
  then "HDR"
  else "SDR"

/-- `extractCodec(title)` (lines 360-365): `/x265|hevc|h\.?265/i`, then
`/x264|h\.?264/i`, then `/av1/i`, else `'Unknown'`. -/
def extractCodec (title : String) : String :=
  let l := lowerS title
  if containsL ("x265".data) l || containsL ("hevc".data) l ||
     containsL ("h265".data) l || containsL ("h.265".data) l then "HEVC"
  else if containsL ("x264".data) l || containsL ("h264".data) l ||
     containsL ("h.264".data) l then "H.264"
  else if containsL ("av1".data) l then "AV1"
  else "Unknown"

/-- A `ReleaseMetadata` record as built by the extractor. -/
structure Metadata where
  title : String
  quality : String
  size : String
  type : String
  hdr : String
  codec : String
deriving DecidableEq

/-- `extractMetadataFromFilename(filename)` (lines 551-560, repeated
verbatim at lines 1022-1031). -/
def extractMetadataFromFilename (filename : String) : Metadata :=
  { title := cleanTitle filename
    quality := extractQuality filename
    size := extractSize filename
    type := detectContentType filename
    hdr := extractHDRInfo filename
    codec := extractCodec filename }

/-! ### Quality ranking (lines 368-394) -/

/-- `this.qualityHierarchy` (line 24): the quality-tier table. -/
def qualityHierarchy : List String :=
  ["480p", "720p", "1080p", "2160p", "4K", "UHD"]

/-- `getQualityRank(quality)` (lines 368-380).  A falsy (empty) or
`'Unknown'` argument ranks `-1`; otherwise the rank is looked up by
case-insensitive substring tests on the normalized string. -/
def getQualityRank (quality : String) : Int :=
  if quality = "" || quality = "Unknown" then -1
  else
    let normalized := lowerS quality
    if containsL ("4k".data) normalized || containsL ("uhd".data) normalized
    then 5
    else if containsL ("2160p".data) normalized then 4
    else if containsL ("1080p".data) normalized then 3
    else if containsL ("720p".data) normalized then 2
    else if containsL ("480p".data) normalized then 1
    else 0

/-- `isBetterQuality(newQuality, currentQuality, preferredQuality)`
(lines 382-394).  The source reads the three ranks into locals and returns
`currentRank < preferredRank || newRank <= preferredRank` when
`newRank > currentRank`, else `false`. -/
def isBetterQuality (newQuality currentQuality preferredQuality : String) : Bool :=
  if getQualityRank newQuality > getQualityRank currentQuality then
    decide (getQualityRank currentQuality < getQualityRank preferredQuality) ||
    decide (getQualityRank newQuality ≤ getQualityRank preferredQuality)
  else false

/-! ### Preferences and the preference matcher (lines 563-649, repeated
verbatim at lines 1034-1108)

Optional JS preference fields are `Option`s (`none` is `undefined`).  Where
the source tests a string field for truthiness, `some ""` behaves like the
falsy empty string. -/

structure Preferences where
  hdrPreference : Option String
  quality : Option String
  allowHigherQuality : Bool
  allowLowerQuality : Bool
  fileTypes : Option (List String)
  maxSize : Option String
  autoUpgrade : Bool
  deleteOldAfterUpgrade : Bool
  maxUpgradeMatches : Option Nat
  completeSeasons : Bool

/-- One requested release type against the title, as in the `switch` of
`matchesOtherPreferences` (lines 609-620): unknown type names never match. -/
def fileTypeMatches (t : String) (title : String) : Bool :=
  if t = "remux" then containsInsens "remux" title
  else if t = "bluray" then
    containsInsens "bluray" title || containsInsens "bdrip" title
  else if t = "web" then
    containsInsens "web-dl" title || containsInsens "webrip" title
  else false

/-- `matchesOtherPreferences(metadata, preferences)` (lines 606-637):
release-type whitelist, then size cap. -/
def matchesOtherPreferences (m : Metadata) (p : Preferences) : Bool :=
  let typeOk : Bool :=
    match p.fileTypes with
    | some ts =>
      if ts.length > 0 then ts.any (fun t => fileTypeMatches t m.title)
      else true
    | none => true
  if !typeOk then false
  else
    match p.maxSize with
    | some ms =>
      if ms != "" && m.size != "Unknown" then
        if convertSizeToGB m.size > convertSizeToGB ms then false else true
      else true
    | none => true

/-- The quality clause of `matchesPreferences` (lines 583-601) together with
the shared fall-through to `matchesOtherPreferences`. -/
def matchesQualityPart (m : Metadata) (p : Preferences) : Bool :=
  match p.quality with
  | some q =>
    if q != "" && m.quality != "Unknown" then
      if getQualityRank m.quality = getQualityRank q then
        matchesOtherPreferences m p
      else if getQualityRank m.quality > getQualityRank q ∧
              p.allowHigherQuality = false then false
      else if getQualityRank m.quality < getQualityRank q ∧
              p.allowLowerQuality = false then false
      else matchesOtherPreferences m p
    else matchesOtherPreferences m p
  | none => matchesOtherPreferences m p

/-- `matchesPreferences(metadata, preferences)` (lines 563-604).  The HDR
clause runs first; `isHDRContent` mirrors the JS truthiness test
`metadata.hdr && metadata.hdr !== 'SDR'`.  The `hdr-preferred` branch of
the source has an empty body, so it contributes nothing. -/
def matchesPreferences (m : Metadata) (p : Preferences) : Bool :=
  let isHDRContent : Bool := m.hdr != "" && m.hdr != "SDR"
  if p.hdrPreference.isSome && p.hdrPreference != some "any" then
    if p.hdrPreference == some "sdr-only" && isHDRContent then false
    else if p.hdrPreference == some "hdr-only" && !isHDRContent then false
    else matchesQualityPart m p
  else matchesQualityPart m p

/-! ### The show-specific candidate filter of `findBestQualityMatchForShow`
(lines 818-837) -/

/-- `/complete|season|s\d{2}/i.test(title)`. -/
def testCompleteSeason (title : String) : Bool :=
  containsInsens "complete" title || containsInsens "season" title ||
  testSdd title.data

/-- A candidate release, `{magnet, ...metadata}`, as produced by the external
`findAllMatchingContent` collaborator. -/
structure MatchItem where
  magnet : String
  md : Metadata
deriving DecidableEq

/-- The filter callback of `findBestQualityMatchForShow` (lines 818-837):
reject on `matchesPreferences` failure; when `completeSeasons` is set,
accept on `/complete|season|s\d{2}/i`, then reject on `/s\d{2}e\d{2}/i`;
accept otherwise. -/
def showMatchFilter (p : Preferences) (m : MatchItem) : Bool :=
  if !matchesPreferences m.md p then false
  else if p.completeSeasons then
    if testCompleteSeason m.md.title then true
    else if testSddEdd m.md.title.data then false
    else true
  else true

/-! ### The upgrade scanner (`checkForQualityUpgrades` and
`findBetterQualityMatches`, lines 461-534 and 917-982)

The scanner's collaborators are modelled as an environment of oracles:
`getRealDebridTorrents` (which catches internally and returns a
success/failure result), the external `findAllMatchingContent` (not defined
in this file of the repository and not wrapped in a local try/catch, so it
may throw — modelled as `Except`), `addMagnetToRealDebrid` and
`deleteRealDebridTorrent` (both catch internally and cannot throw).  Each
embedded operation also returns the list of collaborator calls it issued,
in order. -/

/-- An item of the held-torrent snapshot. -/
structure Torrent where
  id : String
  filename : String
  status : String
deriving DecidableEq

/-- A collaborator call, with the arguments the source passes. -/
inductive Call where
  | getTorrents (apiKey : String)
  | findAll (title contentType : String)
  | addMagnet (apiKey magnet : String)
  | deleteTorrent (apiKey torrentId : String)
deriving DecidableEq

/-- Collaborator oracles.  `torrents` is the result of
`getRealDebridTorrents` (`none` = `{success:false}`); `findAll` models
`findAllMatchingContent` and may throw; `addMagnet` models
`addMagnetToRealDebrid` (`Except.error` = `{success:false, error}`);
`deleteOk` models `deleteRealDebridTorrent`. -/
structure Env where
  torrents : Option (List Torrent)
  findAll : String → String → Except String (List MatchItem)
  addMagnet : String → Except String Unit
  deleteOk : String → Bool

/-- The scanner's result report. -/
structure UpgradeResults where
  checkedTorrents : Nat
  upgradesFound : Nat
  upgradesAdded : Nat
  errors : List String
deriving DecidableEq

/-- Stable descending sort by quality rank, modelling
`.sort((a, b) => getQualityRank(b.quality) - getQualityRank(a.quality))`
(insertion sort keeps the original order of equal ranks, as the engine's
stable sort does). -/
def insertByRankDesc (x : MatchItem) : List MatchItem → List MatchItem
  | [] => [x]
  | y :: ys =>
    if getQualityRank x.md.quality > getQualityRank y.md.quality
    then x :: y :: ys
    else y :: insertByRankDesc x ys

def sortByRankDesc (l : List MatchItem) : List MatchItem :=
  l.foldr insertByRankDesc []

/-- `preferences.maxUpgradeMatches || 3` (line 533): `undefined` and the
falsy `0` both give 3. -/
def maxUpgradeTake (p : Preferences) : Nat :=
  match p.maxUpgradeMatches with
  | some n => if n = 0 then 3 else n
  | none => 3

/-- `findBetterQualityMatches(title, type, currentQuality, preferences)`
(lines 518-534): ask the candidate source, keep matches that are a quality
upgrade and satisfy the preferences, sort best first, truncate.  An
`undefined` `preferences.quality` ranks `-1`, exactly like the empty
string, so it is passed as `""`. -/
def findBetterQualityMatches (env : Env) (title contentType currentQuality : String)
    (p : Preferences) : List Call × Except String (List MatchItem) :=
  ([Call.findAll title contentType],
   match env.findAll title contentType with
   | .error e => .error e
   | .ok allMatches =>
     .ok ((sortByRankDesc (allMatches.filter (fun m =>
         isBetterQuality m.md.quality currentQuality (p.quality.getD "") &&
         matchesPreferences m.md p))).take (maxUpgradeTake p)))

/-- The inner `for (const match of betterMatches)` loop (lines 494-507 /
960-973): add each magnet; on success count it and optionally request
deletion of the old torrent; on failure push an error message.  Returns
(calls, added count, error messages pushed). -/
def addLoop (env : Env) (key : String) (p : Preferences) (torrentId title : String) :
    List MatchItem → List Call × Nat × List String
  | [] => ([], 0, [])
  | m :: ms =>
    match env.addMagnet m.magnet with
    | .ok _ =>
      let delCalls := if p.deleteOldAfterUpgrade
                      then [Call.deleteTorrent key torrentId] else []
      let rest := addLoop env key p torrentId title ms
      (Call.addMagnet key m.magnet :: delCalls ++ rest.1, rest.2.1 + 1, rest.2.2)
    | .error e =>
      let rest := addLoop env key p torrentId title ms
      (Call.addMagnet key m.magnet :: rest.1, rest.2.1,
       ("Failed to upgrade " ++ title ++ ": " ++ e) :: rest.2.2)

/-- One iteration of the scanner's torrent loop (lines 480-510 / 946-976).
A torrent whose status is not `'downloaded'` is skipped.  The only
statement that can throw is the candidate search; it throws before any
counter of the report is touched, so the error propagates with the
accumulated report unchanged. -/
def processTorrent (env : Env) (key : String) (p : Preferences) (t : Torrent)
    (acc : UpgradeResults) : List Call × Except String UpgradeResults :=
  if t.status = "downloaded" then
    let md := extractMetadataFromFilename t.filename
    match findBetterQualityMatches env md.title md.type md.quality p with
    | (calls, .error e) => (calls, .error e)
    | (calls, .ok betterMatches) =>
      if betterMatches.length > 0 then
        let acc1 := { acc with upgradesFound := acc.upgradesFound + betterMatches.length }
        if p.autoUpgrade then
          let al := addLoop env key p t.id md.title betterMatches
          (calls ++ al.1,
           .ok { acc1 with upgradesAdded := acc1.upgradesAdded + al.2.1,
                           errors := acc1.errors ++ al.2.2 })
        else (calls, .ok acc1)
      else (calls, .ok acc)
  else ([], .ok acc)

/-- The `for (const torrent of ...)` loop.  An uncaught exception stops the
loop; the third component carries its message (`none` = no exception). -/
def upgradeLoop (env : Env) (key : String) (p : Preferences) :
    List Torrent → UpgradeResults → List Call × UpgradeResults × Option String
  | [], acc => ([], acc, none)
  | t :: ts, acc =>
    match processTorrent env key p t acc with
    | (calls, .error e) => (calls, acc, some e)
    | (calls, .ok acc2) =>
      let rest := upgradeLoop env key p ts acc2
      (calls ++ rest.1, rest.2)

/-- The better-match list the scanner computes for a torrent (the value of
`betterMatches` in its loop body), empty when the search throws. -/
def betterListOf (env : Env) (p : Preferences) (t : Torrent) : List MatchItem :=
  match (findBetterQualityMatches env
      (extractMetadataFromFilename t.filename).title
      (extractMetadataFromFilename t.filename).type
      (extractMetadataFromFilename t.filename).quality p).2 with
  | .ok l => l
  | .error _ => []

/-- The first textual definition of
`checkForQualityUpgrades(rdApiKey, preferences)` (lines 461-516): fetch the
snapshot, count it, scan every torrent; a thrown exception lands in the
outer catch, which appends one error message to the report built so far. -/
def checkForQualityUpgradesV1 (env : Env) (rdApiKey : String)
    (p : Preferences) : List Call × UpgradeResults :=
  match env.torrents with
  | none =>
    ([Call.getTorrents rdApiKey],
     { checkedTorrents := 0, upgradesFound := 0, upgradesAdded := 0,
       errors := ["Failed to get current torrents"] })
  | some currentTorrents =>
    let r0 : UpgradeResults :=
      { checkedTorrents := currentTorrents.length, upgradesFound := 0,
        upgradesAdded := 0, errors := [] }
    let lr := upgradeLoop env rdApiKey p currentTorrents r0
    (Call.getTorrents rdApiKey :: lr.1,
     match lr.2.2 with
     | some e =>
       { lr.2.1 with errors := lr.2.1.errors ++ ["Quality upgrade check error: " ++ e] }
     | none => lr.2.1)

/-- The second textual definition,
`checkForQualityUpgrades(rdApiKey, preferences, contentType = null)`
(lines 917-982): identical except that a truthy `contentType` first filters
the snapshot by the content type extracted from each filename, and the
count and the loop use the filtered list. -/
def checkForQualityUpgradesV2 (env : Env) (rdApiKey : String)
    (p : Preferences) (contentType : Option String) : List Call × UpgradeResults :=
  match env.torrents with
  | none =>
    ([Call.getTorrents rdApiKey],
     { checkedTorrents := 0, upgradesFound := 0, upgradesAdded := 0,
       errors := ["Failed to get current torrents"] })
  | some currentTorrents =>
    let filteredTorrents :=
      match contentType with
      | some ct =>
        if ct != "" then
          currentTorrents.filter
            (fun t => (extractMetadataFromFilename t.filename).type == ct)
        else currentTorrents
      | none => currentTorrents
    let r0 : UpgradeResults :=
      { checkedTorrents := filteredTorrents.length, upgradesFound := 0,
        upgradesAdded := 0, errors := [] }
    let lr := upgradeLoop env rdApiKey p filteredTorrents r0
    (Call.getTorrents rdApiKey :: lr.1,
     match lr.2.2 with
     | some e =>
       { lr.2.1 with errors := lr.2.1.errors ++ ["Quality upgrade check error: " ++ e] }
     | none => lr.2.1)

/-! ## Claims -/

/-- C1: for all quality strings `n`, `c`, `p` of the quality-tier table,
`isBetterQuality n c p` returns true iff
`getQualityRank n > getQualityRank c` and, in addition,
`getQualityRank c < getQualityRank p` or
`getQualityRank n ≤ getQualityRank p`. -/
theorem isBetterQuality_matches_spec (n c p : String)
    (hn : n ∈ qualityHierarchy) (hc : c ∈ qualityHierarchy)
    (hp : p ∈ qualityHierarchy) :
    isBetterQuality n c p = true ↔
      (getQualityRank n > getQualityRank c ∧
        (getQualityRank c < getQualityRank p ∨
         getQualityRank n ≤ getQualityRank p)) := by
  unfold isBetterQuality
  by_cases h : getQualityRank n > getQualityRank c
  · simp only [if_pos h, Bool.or_eq_true, decide_eq_true_eq]
    tauto
  · simp only [if_neg h, Bool.false_eq_true, false_iff]
    tauto

/-- Witness for C1 at `("1080p", "720p", "1080p")`. -/
theorem isBetterQuality_matches_spec_witness :
    isBetterQuality "1080p" "720p" "1080p" = true ↔
      (getQualityRank "1080p" > getQualityRank "720p" ∧
        (getQualityRank "720p" < getQualityRank "1080p" ∨
         getQualityRank "1080p" ≤ getQualityRank "1080p")) :=
  isBetterQuality_matches_spec "1080p" "720p" "1080p"
    (by decide) (by decide) (by decide)

/-- C2, counterexample: contrary to the claim's second instance,
`isBetterQuality('2160p', '1080p', '1080p')` returns false — the current
rank 3 is not below the preferred rank 3, and the new rank 4 exceeds it. -/
theorem isUpgrade_overshoot_instance_false :
    isBetterQuality "2160p" "1080p" "1080p" = false := by decide

/-- C2, amended: the three spec instances with the second corrected, as the
code computes them: `('1080p','720p','1080p')` is an upgrade,
`('2160p','1080p','1080p')` is not (overshooting the preferred tier is only
allowed while the current tier is strictly below it), and
`('2160p','1080p','720p')` is not. -/
theorem isUpgrade_spec_instances_corrected :
    isBetterQuality "1080p" "720p" "1080p" = true ∧
    isBetterQuality "2160p" "1080p" "1080p" = false ∧
    isBetterQuality "2160p" "1080p" "720p" = false := by decide

/-- C10: on the label `"Movie.2023.DVDRip.x264"`, which carries no HDR
information, `extractHDRInfo` returns `'Dolby Vision'`, because the pattern
`/dolby.?vision|dv/i` matches the bare substring `dv` inside `DVDRip`. -/
theorem extractHDRInfo_dvdrip_dolbyVision :
    extractHDRInfo "Movie.2023.DVDRip.x264" = "Dolby Vision" := by decide

/-- Any title matching `/s\d{2}e\d{2}/i` also matches `/s\d{2}/i`: the first
three characters of the episode match are an `s` and two digits. -/
theorem testSddEdd_implies_testSdd (cs : List Char)
    (h : testSddEdd cs = true) : testSdd cs = true := by
  induction cs with
  | nil => simp [testSddEdd] at h
  | cons c rest ih =>
    match rest, h, ih with
    | [], h, _ => simp [testSddEdd] at h
    | [a], h, _ => simp [testSddEdd] at h
    | [a, b], h, _ => simp [testSddEdd] at h
    | [a, b, e], h, _ => simp [testSddEdd] at h
    | [a, b, e, x], h, _ => simp [testSddEdd] at h
    | a :: b :: e :: x :: y :: tail, h, ih =>
      simp only [testSddEdd, Bool.or_eq_true, Bool.and_eq_true] at h
      rcases h with ⟨⟨⟨⟨⟨hs, ha⟩, hb⟩, _⟩, _⟩, _⟩ | h2
      · simp [testSdd, hs, ha, hb]
      · have htail := ih h2
        have hstep : testSdd (c :: a :: b :: e :: x :: y :: tail) =
            ((decide (c.toLower = 's') && a.isDigit && b.isDigit) ||
             testSdd (a :: b :: e :: x :: y :: tail)) := rfl
        rw [hstep, htail, Bool.or_true]

/-- In the `completeSeasons` filter of `findBestQualityMatchForShow`, the
episode-exclusion branch is unreachable: every candidate that passes the
preference matcher is kept, because `/complete|season|s\d{2}/i` accepts any
title that `/s\d{2}e\d{2}/i` would reject. -/
theorem showMatchFilter_never_excludes (p : Preferences) (m : MatchItem)
    (hm : matchesPreferences m.md p = true) :
    showMatchFilter p m = true := by
  unfold showMatchFilter
  rw [hm]
  simp only [Bool.not_true, Bool.false_eq_true, if_false]
  by_cases hcs : p.completeSeasons
  · simp only [hcs, if_true]
    by_cases ht : testCompleteSeason m.md.title
    · simp [ht]
    · have he : testSddEdd m.md.title.data = false := by
        by_contra hne
        have he' : testSddEdd m.md.title.data = true := by
          revert hne; cases testSddEdd m.md.title.data <;> simp
        have := testSddEdd_implies_testSdd _ he'
        exact ht (by simp [testCompleteSeason, this])
      simp [ht, he]
  · simp [hcs]

/-- C4: with `preferences.completeSeasons` set, the candidate titled
`"Show.S01E05.720p"` — an individual episode, matching `S\d{2}E\d{2}`, in a
group that is not an individual-episode group — passes the show filter and
is NOT excluded from the filtered candidate set: `/complete|season|s\d{2}/i`
matches its `S01` and returns true before the episode-exclusion test runs. -/
theorem completeSeasons_filter_keeps_episode :
    showMatchFilter
        ⟨none, none, false, false, none, none, false, false, none, true⟩
        ⟨"magnet:ep",
         ⟨"Show.S01E05.720p", "720p", "Unknown", "tv", "SDR", "Unknown"⟩⟩ = true ∧
    testSddEdd "Show.S01E05.720p".data = true := by decide

/-- C6, counterexample: the metadata extracted from
`"Movie.Title.2023.1080p.BluRay.x264-GROUP"` does not have cleaned title
`"Movie Title 2023"` — `cleanTitle` deletes tags but keeps the dots. -/
theorem extractMetadata_example_title_differs :
    (extractMetadataFromFilename
        "Movie.Title.2023.1080p.BluRay.x264-GROUP").title ≠
      "Movie Title 2023" := by decide

/-- C6, amended: metadata extraction on
`"Movie.Title.2023.1080p.BluRay.x264-GROUP"` yields cleaned title
`"Movie.Title....-GROUP"` (year, resolution and tags deleted, separators
kept), quality `"1080p"`, unknown size, content type movie, HDR tier SDR
and codec H.264. -/
theorem extractMetadata_example_eval :
    extractMetadataFromFilename "Movie.Title.2023.1080p.BluRay.x264-GROUP" =
      ⟨"Movie.Title....-GROUP", "1080p", "Unknown", "movie", "SDR", "H.264"⟩ := by
  decide

/-- C9: `"1024 MB"` and `"1 GB"` convert to the same number of gigabytes
(1 GB = 1024 MB), so the size-cap clause of `matchesOtherPreferences`
treats two otherwise identical metadata records with these sizes alike for
every preference object — both pass or both are rejected. -/
theorem sizeCap_1024MB_eq_1GB :
    convertSizeToGB "1024 MB" = convertSizeToGB "1 GB" ∧
    ∀ (t q ty hdr cod : String) (p : Preferences),
      matchesOtherPreferences ⟨t, q, "1024 MB", ty, hdr, cod⟩ p =
        matchesOtherPreferences ⟨t, q, "1 GB", ty, hdr, cod⟩ p := by
  have hscan1 : scanSize "1024 MB".data = some (['1', '0', '2', '4'], ['M', 'B']) := by
    decide
  have hscan2 : scanSize "1 GB".data = some (['1'], ['G', 'B']) := by decide
  have hp1 : parseNum ['1', '0', '2', '4'] = ((1024 : ℕ) : ℚ) := by
    simp only [parseNum,
      (by decide : List.dropWhile Char.isDigit ['1', '0', '2', '4'] = ([] : List Char)),
      (by decide : List.takeWhile Char.isDigit ['1', '0', '2', '4'] = ['1', '0', '2', '4']),
      (by decide : digitsVal ['1', '0', '2', '4'] = 1024)]
  have hp2 : parseNum ['1'] = ((1 : ℕ) : ℚ) := by
    simp only [parseNum,
      (by decide : List.dropWhile Char.isDigit ['1'] = ([] : List Char)),
      (by decide : List.takeWhile Char.isDigit ['1'] = ['1']),
      (by decide : digitsVal ['1'] = 1)]
  have hMB : ¬(['M', 'B'].map Char.toLower = "gb".data) := by decide
  have hGB : ['G', 'B'].map Char.toLower = "gb".data := by decide
  have e1 : convertSizeToGB "1024 MB" = ((1024 : ℕ) : ℚ) / 1024 := by
    simp [convertSizeToGB, hscan1, hp1, hMB]
  have e2 : convertSizeToGB "1 GB" = ((1 : ℕ) : ℚ) := by
    simp [convertSizeToGB, hscan2, hp2, hGB]
  have h : convertSizeToGB "1024 MB" = convertSizeToGB "1 GB" := by
    rw [e1, e2]; norm_num
  have h1 : (("1024 MB" : String) != "Unknown") = true := by decide
  have h2 : (("1 GB" : String) != "Unknown") = true := by decide
  refine ⟨h, fun t q ty hdr cod p => ?_⟩
  simp only [matchesOtherPreferences, h1, h2, h, Bool.and_true]

/-- `extractHDRInfo` always returns one of its five tier names, never the
empty string (relevant because the matcher's `isHDRContent` also tests the
field for JS truthiness). -/
theorem extractHDRInfo_ne_empty (label : String) : extractHDRInfo label ≠ "" := by
  unfold extractHDRInfo
  split_ifs <;> decide

/-- C7: for every metadata record whose `hdr` field is a non-SDR value of
the extractor and every preference object with `hdrPreference` equal to
`'sdr-only'`, `matchesPreferences` returns false; the size field of the
metadata and the `maxSize` cap are arbitrary, so the rejection is
independent of them (the size-cap clause is never reached). -/
theorem sdrOnly_rejects_nonSDR (mtitle q sz ty cod label : String)
    (p : Preferences) (hp : p.hdrPreference = some "sdr-only")
    (hh : extractHDRInfo label ≠ "SDR") :
    matchesPreferences ⟨mtitle, q, sz, ty, extractHDRInfo label, cod⟩ p = false := by
  have hne : extractHDRInfo label ≠ "" := extractHDRInfo_ne_empty label
  unfold matchesPreferences
  simp [hp, bne_iff_ne, hne, hh]

/-- Witness for C7: HDR10 content, a 100 GB size, an `sdr-only` preference
with a 1 GB cap — rejected by the HDR clause alone. -/
theorem sdrOnly_rejects_nonSDR_witness :
    matchesPreferences
      ⟨"X", "1080p", "100 GB", "movie", extractHDRInfo "X.HDR10.Y", "HEVC"⟩
      ⟨some "sdr-only", none, false, false, none, some "1 GB",
       false, false, none, false⟩ = false :=
  sdrOnly_rejects_nonSDR "X" "1080p" "100 GB" "movie" "HEVC" "X.HDR10.Y"
    ⟨some "sdr-only", none, false, false, none, some "1 GB",
     false, false, none, false⟩
    rfl (by decide)

/-- C3, counterexample: with the snapshot holding one downloaded movie and
the third argument `'tv'`, the first definition of
`checkForQualityUpgrades` (which ignores a third argument) scans the
torrent while the second filters it out — the reports (1 vs 0 torrents
checked) and the call sequences differ. -/
theorem checkForQualityUpgrades_defs_differ :
    checkForQualityUpgradesV1
        ⟨some [⟨"id1", "Alpha.2023.1080p", "downloaded"⟩],
         fun _ _ => .ok [], fun _ => .ok (), fun _ => true⟩
        "key"
        ⟨none, none, false, false, none, none, false, false, none, false⟩ ≠
      checkForQualityUpgradesV2
        ⟨some [⟨"id1", "Alpha.2023.1080p", "downloaded"⟩],
         fun _ _ => .ok [], fun _ => .ok (), fun _ => true⟩
        "key"
        ⟨none, none, false, false, none, none, false, false, none, false⟩
        (some "tv") := by decide

/-- C3, amended: the two textual definitions of `checkForQualityUpgrades`
are behaviorally equivalent — same result report and same collaborator-call
sequence — whenever the second definition's third argument is its default
null; a non-null content type makes the second definition filter the
snapshot, which the first cannot do. -/
theorem checkForQualityUpgrades_defs_agree_on_null (env : Env) (key : String)
    (p : Preferences) :
    checkForQualityUpgradesV1 env key p =
      checkForQualityUpgradesV2 env key p none := by
  obtain ⟨tor, fa, am, del⟩ := env
  cases tor <;> rfl

/-- C5, counterexample: `cleanTitle` is not idempotent.  Deleting `x264`
from `"Blux264Ray"` creates the tag `BluRay`, which only a second
application deletes: `cleanTitle "Blux264Ray" = "BluRay"` but
`cleanTitle "BluRay" = ""`. -/
theorem cleanTitle_not_idempotent :
    cleanTitle (cleanTitle "Blux264Ray") ≠ cleanTitle "Blux264Ray" := by decide

/-- A list whose `dropWhile` result is nonempty starts that result with an
element refuting the predicate. -/
theorem dropWhile_head_not_or_nil (q : Char → Bool) (l : List Char) :
    l.dropWhile q = [] ∨
      ∃ a t, l.dropWhile q = a :: t ∧ q a = false := by
  induction l with
  | nil => exact Or.inl rfl
  | cons c cs ih =>
    by_cases h : q c
    · rw [List.dropWhile_cons_of_pos h]
      exact ih
    · exact Or.inr ⟨c, cs, List.dropWhile_cons_of_neg h, by
        cases hq : q c with
        | true => exact absurd hq h
        | false => rfl⟩

/-- `dropWhile` is the identity on a list that is empty or whose head
refutes the predicate. -/
theorem dropWhile_eq_self_of_head_false (q : Char → Bool) (l : List Char)
    (h : l = [] ∨ ∃ a t, l = a :: t ∧ q a = false) :
    l.dropWhile q = l := by
  rcases h with rfl | ⟨a, t, rfl, ha⟩
  · rfl
  · exact List.dropWhile_cons_of_neg (by simp [ha])

/-- The trim of the model is idempotent. -/
theorem trimL_idem (l : List Char) : trimL (trimL l) = trimL l := by
  unfold trimL
  have h2 : (((l.dropWhile isJSSpace).reverse.dropWhile isJSSpace).dropWhile
      isJSSpace) = (l.dropWhile isJSSpace).reverse.dropWhile isJSSpace :=
    dropWhile_eq_self_of_head_false _ _
      (dropWhile_head_not_or_nil isJSSpace (l.dropWhile isJSSpace).reverse)
  have h1 : ((l.dropWhile isJSSpace).reverse.dropWhile isJSSpace).reverse.dropWhile
      isJSSpace = ((l.dropWhile isJSSpace).reverse.dropWhile isJSSpace).reverse := by
    apply dropWhile_eq_self_of_head_false
    rcases hr : ((l.dropWhile isJSSpace).reverse.dropWhile isJSSpace).reverse
      with _ | ⟨a, t⟩
    · exact Or.inl rfl
    · refine Or.inr ⟨a, t, rfl, ?_⟩
      have hm : l.dropWhile isJSSpace =
          ((l.dropWhile isJSSpace).reverse.dropWhile isJSSpace).reverse ++
            ((l.dropWhile isJSSpace).reverse.takeWhile isJSSpace).reverse := by
        conv_lhs => rw [← List.reverse_reverse (l.dropWhile isJSSpace),
          ← List.takeWhile_append_dropWhile (p := isJSSpace)
            (l := (l.dropWhile isJSSpace).reverse)]
        rw [List.reverse_append]
      rw [hr] at hm
      rcases dropWhile_head_not_or_nil isJSSpace l with hnil | ⟨a2, t2, het, ha2⟩
      · rw [hnil] at hm
        exact absurd hm.symm (by simp)
      · rw [het] at hm
        have : a2 = a := by
          have := congrArg (fun x => x.head?) hm
          simpa using this
        rw [← this]
        exact ha2
  rw [h1, List.reverse_reverse, h2]

/-- C5, amended: `cleanTitle` is idempotent on every title whose cleaned
form is a fixed point of each of the five removal passes, i.e. whenever
cleaning creates no new removable token; the counterexample
`"Blux264Ray"` shows the restriction is necessary. -/
theorem cleanTitle_idempotent_of_fixed (t : String)
    (h1 : stripDelim '[' ']' (cleanTitle t).data = (cleanTitle t).data)
    (h2 : stripDelim '(' ')' (cleanTitle t).data = (cleanTitle t).data)
    (h3 : stripRes (cleanTitle t).data = (cleanTitle t).data)
    (h4 : stripLits sourceTags (cleanTitle t).data = (cleanTitle t).data)
    (h5 : stripLits codecTags (cleanTitle t).data = (cleanTitle t).data) :
    cleanTitle (cleanTitle t) = cleanTitle t := by
  have hstep : cleanTitle (cleanTitle t) =
      String.mk (trimL (stripLits codecTags (stripLits sourceTags (stripRes
        (stripDelim '(' ')' (stripDelim '[' ']' (cleanTitle t).data)))))) := rfl
  rw [hstep, h1, h2, h3, h4, h5]
  show String.mk (trimL (cleanTitle t).data) = cleanTitle t
  have hdata : (cleanTitle t).data =
      trimL (stripLits codecTags (stripLits sourceTags (stripRes
        (stripDelim '(' ')' (stripDelim '[' ']' t.data))))) := rfl
  rw [hdata, trimL_idem, ← hdata]

/-- Witness for C5's amended statement at `"Hello World"`, a fixed point of
all five removal passes. -/
theorem cleanTitle_idempotent_of_fixed_witness :
    cleanTitle (cleanTitle "Hello World") = cleanTitle "Hello World" :=
  cleanTitle_idempotent_of_fixed "Hello World"
    (by decide) (by decide) (by decide) (by decide) (by decide)

/-- Snapshot with two downloaded torrents; the candidate search throws for
the first one and would find an eligible upgrade for the second. -/
def envC8 : Env :=
  { torrents := some [⟨"a", "Alpha.2023.1080p", "downloaded"⟩,
                      ⟨"b", "Beta.S01E01", "downloaded"⟩]
    findAll := fun title _ =>
      if title = "Alpha.." then .error "boom"
      else .ok [⟨"magnetB", ⟨"Beta", "1080p", "Unknown", "tv", "SDR", "Unknown"⟩⟩]
    addMagnet := fun _ => .ok ()
    deleteOk := fun _ => true }

def prefsC8 : Preferences :=
  ⟨none, some "1080p", false, false, none, none, false, false, none, false⟩

/-- C8, counterexample: an exception raised while processing the first held
torrent is caught only by the scanner's outer catch — it is recorded as a
single scan-level error, and the remaining torrent in the snapshot is never
checked (its candidate-search call is absent from the call sequence and no
upgrade is counted for it, though one exists). -/
theorem upgradeScan_exception_aborts :
    (checkForQualityUpgradesV2 envC8 "k" prefsC8 none).2.errors =
        ["Quality upgrade check error: boom"] ∧
    Call.findAll "Beta.S01E01" "tv" ∉
        (checkForQualityUpgradesV2 envC8 "k" prefsC8 none).1 ∧
    (checkForQualityUpgradesV2 envC8 "k" prefsC8 none).2.upgradesFound = 0 ∧
    0 < (betterListOf envC8 prefsC8 ⟨"b", "Beta.S01E01", "downloaded"⟩).length := by
  decide

/-- Each failed add of the scanner's inner magnet loop leaves its
`Failed to upgrade` message in the error list the loop produces. -/
theorem addLoop_error_mem (env : Env) (key : String) (p : Preferences)
    (tid title : String) (ms : List MatchItem) (m : MatchItem)
    (hm : m ∈ ms) (err : String)
    (he : env.addMagnet m.magnet = Except.error err) :
    ("Failed to upgrade " ++ title ++ ": " ++ err) ∈
      (addLoop env key p tid title ms).2.2 := by
  induction ms with
  | nil => cases hm
  | cons x xs ih =>
    rcases List.mem_cons.mp hm with rfl | hx
    · simp [addLoop, he]
    · cases hax : env.addMagnet x.magnet with
      | ok u => simpa [addLoop, hax] using ih hx
      | error e => simpa [addLoop, hax] using Or.inr (ih hx)

/-- When the candidate search cannot throw, one scanner iteration returns
normally, only appends to the error list, issues the torrent's search call
when the torrent is downloaded, and records every failed add of the
torrent's better-match list. -/
theorem processTorrent_spec (env : Env) (key : String) (p : Preferences)
    (t : Torrent) (acc : UpgradeResults)
    (hok : ∀ a b, ∃ l, env.findAll a b = Except.ok l) :
    ∃ calls acc2, processTorrent env key p t acc = (calls, Except.ok acc2) ∧
      (∀ e, e ∈ acc.errors → e ∈ acc2.errors) ∧
      (t.status = "downloaded" →
        Call.findAll (extractMetadataFromFilename t.filename).title
          (extractMetadataFromFilename t.filename).type ∈ calls) ∧
      (t.status = "downloaded" → p.autoUpgrade = true →
        ∀ m, m ∈ betterListOf env p t → ∀ err,
          env.addMagnet m.magnet = Except.error err →
          ("Failed to upgrade " ++
              (extractMetadataFromFilename t.filename).title ++ ": " ++ err) ∈
            acc2.errors) := by
  by_cases hd : t.status = "downloaded"
  case neg =>
    refine ⟨[], acc, by simp [processTorrent, hd], fun e he => he,
      fun h => absurd h hd, fun h => absurd h hd⟩
  case pos =>
    obtain ⟨l, hl⟩ := hok (extractMetadataFromFilename t.filename).title
      (extractMetadataFromFilename t.filename).type
    have hfb : findBetterQualityMatches env
        (extractMetadataFromFilename t.filename).title
        (extractMetadataFromFilename t.filename).type
        (extractMetadataFromFilename t.filename).quality p =
        ([Call.findAll (extractMetadataFromFilename t.filename).title
            (extractMetadataFromFilename t.filename).type],
         Except.ok ((sortByRankDesc (l.filter (fun m =>
             isBetterQuality m.md.quality
               (extractMetadataFromFilename t.filename).quality
               (p.quality.getD "") &&
             matchesPreferences m.md p))).take (maxUpgradeTake p))) := by
      simp [findBetterQualityMatches, hl]
    have hbl : betterListOf env p t =
        (sortByRankDesc (l.filter (fun m =>
           isBetterQuality m.md.quality
             (extractMetadataFromFilename t.filename).quality
             (p.quality.getD "") &&
           matchesPreferences m.md p))).take (maxUpgradeTake p) := by
      simp [betterListOf, hfb]
    set B := (sortByRankDesc (l.filter (fun m =>
        isBetterQuality m.md.quality
          (extractMetadataFromFilename t.filename).quality
          (p.quality.getD "") &&
        matchesPreferences m.md p))).take (maxUpgradeTake p) with hB
    by_cases hlen : 0 < B.length
    case neg =>
      have hnil : B = [] := List.eq_nil_of_length_eq_zero (by omega)
      refine ⟨[Call.findAll (extractMetadataFromFilename t.filename).title
          (extractMetadataFromFilename t.filename).type], acc,
        by simp [processTorrent, hd, hfb, hnil], fun e he => he,
        fun _ => by simp, ?_⟩
      intro _ _ m hm
      rw [hbl, hnil] at hm
      cases hm
    case pos =>
      by_cases hau : p.autoUpgrade = true
      case pos =>
        refine ⟨Call.findAll (extractMetadataFromFilename t.filename).title
              (extractMetadataFromFilename t.filename).type ::
            (addLoop env key p t.id
              (extractMetadataFromFilename t.filename).title B).1,
          { acc with
              upgradesFound := acc.upgradesFound + B.length,
              upgradesAdded := acc.upgradesAdded +
                (addLoop env key p t.id
                  (extractMetadataFromFilename t.filename).title B).2.1,
              errors := acc.errors ++
                (addLoop env key p t.id
                  (extractMetadataFromFilename t.filename).title B).2.2 },
          by simp [processTorrent, hd, hfb, hlen, hau], ?_, fun _ => by simp, ?_⟩
        · intro e he
          exact List.mem_append_left _ he
        · intro _ _ m hm err herr
          rw [hbl] at hm
          exact List.mem_append_right _
            (addLoop_error_mem env key p t.id
              (extractMetadataFromFilename t.filename).title B m hm err herr)
      case neg =>
        refine ⟨[Call.findAll (extractMetadataFromFilename t.filename).title
            (extractMetadataFromFilename t.filename).type],
          { acc with upgradesFound := acc.upgradesFound + B.length },
          by simp [processTorrent, hd, hfb, hlen, hau], fun e he => he,
          fun _ => by simp, fun _ hau2 => absurd hau2 hau⟩

/-- C8, amended: while the candidate-search collaborator does not throw,
the scan never aborts: every torrent of the snapshot with status
`'downloaded'` gets its candidate-search call, previously recorded errors
are preserved, and every failed magnet add (a failure result, not an
exception) is recorded in the errors of the final report while scanning
continues; an exception from the candidate search, by contrast, aborts the
scan of the remaining items (see the counterexample). -/
theorem upgradeScan_failure_recorded_and_continues (env : Env) (key : String)
    (p : Preferences) (hok : ∀ a b, ∃ l, env.findAll a b = Except.ok l) :
    ∀ (ts : List Torrent) (acc : UpgradeResults),
      (upgradeLoop env key p ts acc).2.2 = none ∧
      (∀ e, e ∈ acc.errors → e ∈ (upgradeLoop env key p ts acc).2.1.errors) ∧
      (∀ t, t ∈ ts → t.status = "downloaded" →
        Call.findAll (extractMetadataFromFilename t.filename).title
            (extractMetadataFromFilename t.filename).type ∈
          (upgradeLoop env key p ts acc).1) ∧
      (∀ t, t ∈ ts → t.status = "downloaded" → p.autoUpgrade = true →
        ∀ m, m ∈ betterListOf env p t → ∀ err,
          env.addMagnet m.magnet = Except.error err →
          ("Failed to upgrade " ++
              (extractMetadataFromFilename t.filename).title ++ ": " ++ err) ∈
            (upgradeLoop env key p ts acc).2.1.errors) := by
  intro ts
  induction ts with
  | nil =>
    intro acc
    exact ⟨rfl, fun e he => he, fun t ht => absurd ht (List.not_mem_nil t),
      fun t ht => absurd ht (List.not_mem_nil t)⟩
  | cons t ts ih =>
    intro acc
    obtain ⟨calls, acc2, hpt, hmono, hcall, hrec⟩ :=
      processTorrent_spec env key p t acc hok
    have hloop : upgradeLoop env key p (t :: ts) acc =
        (calls ++ (upgradeLoop env key p ts acc2).1,
         (upgradeLoop env key p ts acc2).2) := by
      simp [upgradeLoop, hpt]
    obtain ⟨ih1, ih2, ih3, ih4⟩ := ih acc2
    refine ⟨?_, ?_, ?_, ?_⟩
    · rw [hloop]
      exact ih1
    · intro e he
      rw [hloop]
      exact ih2 e (hmono e he)
    · intro u hu hdu
      rw [hloop]
      rcases List.mem_cons.mp hu with rfl | hu2
      · exact List.mem_append_left _ (hcall hdu)
      · exact List.mem_append_right _ (ih3 u hu2 hdu)
    · intro u hu hdu hau m hm err herr
      rw [hloop]
      rcases List.mem_cons.mp hu with rfl | hu2
      · exact ih2 _ (hrec hdu hau m hm err herr)
      · exact ih4 u hu2 hdu hau m hm err herr

/-- Witness for C8's amended statement: a one-torrent scan in an
environment whose candidate search never throws finishes with no
exception. -/
theorem upgradeScan_failure_recorded_and_continues_witness :
    (upgradeLoop
        ⟨some [⟨"a", "F.2023.1080p", "downloaded"⟩],
         fun _ _ => .ok [], fun _ => .error "add failed", fun _ => true⟩
        "k"
        ⟨none, none, false, false, none, none, true, false, none, false⟩
        [⟨"a", "F.2023.1080p", "downloaded"⟩]
        ⟨0, 0, 0, []⟩).2.2 = none :=
  (upgradeScan_failure_recorded_and_continues
      ⟨some [⟨"a", "F.2023.1080p", "downloaded"⟩],
       fun _ _ => .ok [], fun _ => .error "add failed", fun _ => true⟩
      "k"
      ⟨none, none, false, false, none, none, true, false, none, false⟩
      (fun _ _ => ⟨[], rfl⟩)
      [⟨"a", "F.2023.1080p", "downloaded"⟩]
      ⟨0, 0, 0, []⟩).1
